import Mathlib

/-!
Shallow embedding of the tokenized file-upload relay
(`AssetManagerPublicPages`): the multipart decoder, the token validity
check, the OneDrive storage client (small PUT / chunked session upload)
and the upload orchestrator of `src/unnamed/part_000`, plus the
token-status endpoint of `src/api/tokenCheck/index.js`.

Strings and byte buffers are modelled as `List Nat` (byte values);
timestamps as integers (milliseconds); the Token Store as a lookup
function; the Object Storage Backend as an oracle mapping each storage
call to a 2xx/non-2xx outcome.
-/

/-- Bytes of a string or buffer, one `Nat` per byte (ASCII-faithful). -/
abbrev Bytes := List Nat

/-- Byte list of a Lean string literal (ASCII inputs). -/
def s2b (s : String) : Bytes := s.toList.map (fun c => c.toNat)

/-- ASCII lower-casing of one byte, for the case-insensitive regex flag. -/
def lowerByte (b : Nat) : Nat := if 65 ≤ b ∧ b ≤ 90 then b + 32 else b

/-- JS `\s` on ASCII: space, tab, LF, VT, FF, CR. -/
def isWsByte (b : Nat) : Bool :=
  b = 32 || b = 9 || b = 10 || b = 11 || b = 12 || b = 13

/-- JS regex `.`: any byte except LF and CR (ASCII view). -/
def isLineByte (b : Nat) : Bool := !(b = 10) && !(b = 13)

/-- JS `String.prototype.trim` on ASCII content. -/
def trimBytes (l : Bytes) : Bytes :=
  ((l.dropWhile isWsByte).reverse.dropWhile isWsByte).reverse

/-- `pat` is a prefix of `l`. -/
def listStartsWith : Bytes → Bytes → Bool
  | [], _ => true
  | _ :: _, [] => false
  | p :: ps, x :: xs => p = x && listStartsWith ps xs

/-- Case-insensitive prefix test (for the `/i` regex flag). -/
def startsWithCI : Bytes → Bytes → Bool
  | [], _ => true
  | _ :: _, [] => false
  | p :: ps, x :: xs => lowerByte p = lowerByte x && startsWithCI ps xs

/-- First index at which `pat` occurs in `l` (JS `Buffer.indexOf`). -/
def subIndexOf (pat : Bytes) : Bytes → Option Nat
  | [] => if pat = [] then some 0 else none
  | l@(_ :: t) =>
    if listStartsWith pat l then some 0
    else (subIndexOf pat t).map (fun i => i + 1)

/-- `Buffer.indexOf(pat, start)`: first occurrence at index ≥ `s`. -/
def indexOfFrom (pat l : Bytes) (s : Nat) : Option Nat :=
  (subIndexOf pat (l.drop s)).map (fun i => i + s)

/-- `status` enum of the UploadToken schema. -/
inductive TokenStatus
  | active
  | expired
  | revoked
deriving DecidableEq

/-- One entry of the token's `uploads` history array. -/
structure HistEntry where
  fileName : Bytes
  oneDrivePath : Bytes
  uploadedAt : Int
deriving DecidableEq

/-- Stored upload-token record (UploadToken schema of the shared model). -/
structure UploadTokenRec where
  token : Bytes
  userId : Bytes
  expiresAt : Int
  maxUploads : Int
  uploadsUsed : Int
  status : TokenStatus
  uploads : List HistEntry
deriving DecidableEq

/-- A decoded multipart file part. -/
structure FilePart where
  filename : Bytes
  mimeType : Bytes
  buffer : Bytes
deriving DecidableEq

/-- Per-file entry of the response `results` array. -/
structure UploadResult where
  filename : Bytes
  success : Bool
  error : Option Bytes
deriving DecidableEq

/-- Users collection record (only the fields the endpoints read). -/
structure UserRec where
  firstName : Option Bytes
  lastName : Option Bytes
deriving DecidableEq

/-- `uploadTokenSchema.methods.isValid` of the shared UploadToken model
(`src/unnamed/part_002`, lines 20-25). -/
def isValid (t : UploadTokenRec) (now : Int) : Bool :=
  if t.status = TokenStatus.revoked then false
  else if t.expiresAt < now then false
  else if t.maxUploads ≤ t.uploadsUsed then false
  else true

/-- Boundary extraction, `contentType.match` with pattern
`boundary=(.+?)(?:;|$)` including the regex's retry-on-failed-capture
behaviour (`src/unnamed/part_000`, line 104). -/
def findBoundaryAux : Bytes → Option Bytes
  | [] => none
  | l@(_ :: t) =>
    if listStartsWith (s2b ("boundary=")) l then
      match l.drop 9 with
      | [] => findBoundaryAux t
      | c :: r => some (c :: r.takeWhile (fun b => !(b = 59)))
    else findBoundaryAux t

/-- The boundary recovered from the `Content-Type` header, if any. -/
def extractBoundary (contentType : Bytes) : Option Bytes :=
  findBoundaryAux contentType

/-- Scanning match of `pat` followed by a regex group `([^"]+)` and a
closing quote, retrying at later occurrences when the capture fails:
models `headerStr.match` with `name="([^"]+)"` / `filename="([^"]+)"`. -/
def matchQuoted (pat : Bytes) : Bytes → Option Bytes
  | [] => none
  | l@(_ :: t) =>
    if listStartsWith pat l then
      let rest := l.drop pat.length
      let cap := rest.takeWhile (fun b => !(b = 34))
      if 0 < cap.length ∧ cap.length < rest.length then some cap
      else matchQuoted pat t
    else matchQuoted pat t

/-- Backtracking of greedy `\s*` before `(.+)`: try the capture at
whitespace-skip `k`, shrinking the skip until `.+` can match. -/
def ctTry (rest : Bytes) : Nat → Option Bytes
  | 0 =>
    match rest with
    | [] => none
    | b :: bs => if isLineByte b then some (b :: bs.takeWhile isLineByte) else none
  | k + 1 =>
    match rest.drop (k + 1) with
    | [] => ctTry rest k
    | b :: bs =>
      if isLineByte b then some (b :: bs.takeWhile isLineByte)
      else ctTry rest k

/-- Capture of `\s*(.+)` against `rest`, greedy with backtracking. -/
def ctCapture (rest : Bytes) : Option Bytes :=
  ctTry rest (rest.takeWhile isWsByte).length

/-- `headerStr.match` with `/Content-Type:\s*(.+)/i`
(`src/unnamed/part_000`, line 125). -/
def matchCT : Bytes → Option Bytes
  | [] => none
  | l@(_ :: t) =>
    if startsWithCI (s2b ("content-type:")) l then
      match ctCapture (l.drop 13) with
      | some cap => some cap
      | none => matchCT t
    else matchCT t

/-- The per-delimiter scan loop of `parseMultipart`
(`src/unnamed/part_000`, lines 115-132), with fuel bounding the number
of iterations (the loop advances `start` by at least the delimiter
length each round, so `body.length + 1` rounds always suffice). -/
def scanParts (bb body : Bytes) : Nat → Nat → List FilePart → Option Bytes →
    List FilePart × Option Bytes
  | 0, _, fs, tk => (fs, tk)
  | fuel + 1, start, fs, tk =>
    if start < body.length then
      match indexOfFrom bb body start with
      | none => (fs, tk)
      | some nb =>
        let part := (body.take nb).drop start
        match subIndexOf (s2b ("\r\n\r\n")) part with
        | none => scanParts bb body fuel (nb + bb.length) fs tk
        | some he =>
          let headerStr := part.take he
          let content := (part.take (part.length - 2)).drop (he + 4)
          let nm := matchQuoted (s2b ("name=\"")) headerStr
          let fm := matchQuoted (s2b ("filename=\"")) headerStr
          if nm = some (s2b ("token")) ∧ fm = none then
            scanParts bb body fuel (nb + bb.length) fs (some (trimBytes content))
          else
            match fm with
            | some fn =>
              let mime := match matchCT headerStr with
                | some m => trimBytes m
                | none => s2b ("application/octet-stream")
              scanParts bb body fuel (nb + bb.length)
                (fs ++ [⟨fn, mime, content⟩]) tk
            | none => scanParts bb body fuel (nb + bb.length) fs tk
    else (fs, tk)

/-- `parseMultipart(req)` of `src/unnamed/part_000` (lines 102-134):
either throws (`none`, no boundary in the header) or returns the decoded
files in order of appearance plus the trimmed `token` field value.
A first delimiter that is absent leaves `start` at `-1 + bb.length`
exactly as in JS. -/
def parseMultipart (contentType body : Bytes) : Option (List FilePart × Option Bytes) :=
  match extractBoundary contentType with
  | none => none
  | some boundary =>
    let bb := s2b ("--") ++ boundary
    let start0 :=
      match subIndexOf bb body with
      | some i => i + bb.length
      | none => bb.length - 1
    some (scanParts bb body (body.length + 1) start0 [] none)

/-- The allow-list of declared MIME types (`src/unnamed/part_000`,
lines 96-99). -/
def ALLOWED_MIME_TYPES : List Bytes :=
  [s2b ("application/pdf"), s2b ("image/jpeg"), s2b ("image/png"),
   s2b ("image/tiff"),
   s2b ("application/vnd.openxmlformats-officedocument.wordprocessingml.document")]

/-- `MAX_FILE_SIZE = 50 * 1024 * 1024` (50 MiB). -/
def MAX_FILE_SIZE : Nat := 50 * 1024 * 1024

/-- `chunkSize = 4 * 1024 * 1024` (4 MiB), also the small-file cutoff. -/
def chunkSize : Nat := 4 * 1024 * 1024

/-- One HTTP call against the Object Storage Backend: a small-file
direct PUT, an upload-session creation, or a ranged chunk PUT carrying
`Content-Range: bytes start-endIx/total`. -/
inductive StorageCall
  | smallPut (path : Bytes) (size : Nat)
  | createSession (path : Bytes) (name : Bytes)
  | chunkPut (start endIx total : Nat)
deriving DecidableEq

/-- Storage path `AIFile-Uploads/userId/ts-filename`
(`src/unnamed/part_000`, line 172). -/
def filePathFor (userId : Bytes) (ts : Nat) (filename : Bytes) : Bytes :=
  s2b ("AIFile-Uploads/") ++ userId ++ s2b ("/") ++ s2b (toString ts) ++
    s2b ("-") ++ filename

/-- Graph content-PUT path `/users/u/drive/root:/path:/content`. -/
def contentApiPath (oneDriveUser path : Bytes) : Bytes :=
  s2b ("/users/") ++ oneDriveUser ++ s2b ("/drive/root:/") ++ path ++ s2b (":/content")

/-- Graph session-creation path `/users/u/drive/root:/path:/createUploadSession`. -/
def sessionApiPath (oneDriveUser path : Bytes) : Bytes :=
  s2b ("/users/") ++ oneDriveUser ++ s2b ("/drive/root:/") ++ path ++
    s2b (":/createUploadSession")

/-- The chunk loop header arithmetic of `src/unnamed/part_000`
(lines 181-188): ranges `(i, min (i + chunkSize - 1) (len - 1))` for
`i = 0, chunkSize, 2*chunkSize, ...` while `i < len`.  Fuel bounds the
iteration count; `len` rounds always suffice since `i` grows by
`chunkSize ≥ 1` each round. -/
def chunkGo : Nat → Nat → Nat → List (Nat × Nat)
  | 0, _, _ => []
  | fuel + 1, len, i =>
    if i < len then
      (i, min (i + chunkSize - 1) (len - 1)) :: chunkGo fuel len (i + chunkSize)
    else []

/-- All chunk byte ranges for a payload of `len` bytes. -/
def chunkUploads (len : Nat) : List (Nat × Nat) := chunkGo len len 0

/-- Sequential ranged PUTs of the chunk ranges: each chunk must get a
2xx (`σ c = true`) before the next is sent; a non-2xx rejects and the
loop aborts with the file. -/
def sendChunks (σ : StorageCall → Bool) (total : Nat) :
    List (Nat × Nat) → Bool × List StorageCall
  | [] => (true, [])
  | (s, e) :: rest =>
    let c := StorageCall.chunkPut s e total
    if σ c then
      let r := sendChunks σ total rest
      (r.1, c :: r.2)
    else (false, [c])

/-- Relay of one file (`src/unnamed/part_000`, lines 173-189): payloads
of at most 4 MiB go through the direct content PUT; larger payloads
create an upload session and stream 4 MiB chunks.  Returns whether the
file succeeded together with the storage calls attempted, in order. -/
def uploadFile (σ : StorageCall → Bool) (oneDriveUser userId : Bytes)
    (ts : Nat) (f : FilePart) : Bool × List StorageCall :=
  let fp := filePathFor userId ts f.filename
  if f.buffer.length ≤ chunkSize then
    let c := StorageCall.smallPut (contentApiPath oneDriveUser fp) f.buffer.length
    (σ c, [c])
  else
    let c0 := StorageCall.createSession (sessionApiPath oneDriveUser fp) f.filename
    if σ c0 then
      let r := sendChunks σ f.buffer.length (chunkUploads f.buffer.length)
      (r.1, c0 :: r.2)
    else (false, [c0])

/-- First violation found by the pre-upload validation loop
(`src/unnamed/part_000`, lines 157-164): per file, the MIME allow-list
is checked before the size cap. -/
inductive Violation
  | mime (f : FilePart)
  | size (f : FilePart)
deriving DecidableEq

/-- The validation loop itself. -/
def firstViolation : List FilePart → Option Violation
  | [] => none
  | f :: rest =>
    if f.mimeType ∈ ALLOWED_MIME_TYPES then
      if MAX_FILE_SIZE < f.buffer.length then some (Violation.size f)
      else firstViolation rest
    else some (Violation.mime f)

/-- Outcome of relaying one file: its `results` entry, its staged
history entry (successes only) and the storage calls it made. -/
structure FileOutcome where
  result : UploadResult
  hist : Option HistEntry
  calls : List StorageCall
deriving DecidableEq

/-- Per-file body of the upload loop (`src/unnamed/part_000`,
lines 171-196): on success stage a history entry and record
`success:true`; on any storage failure record
`{success:false, error:'Upload failed'}`. -/
def processFile (σ : StorageCall → Bool) (oneDriveUser userId : Bytes)
    (uploadedAt : Int) (ts : Nat) (f : FilePart) : FileOutcome :=
  let fp := filePathFor userId ts f.filename
  let r := uploadFile σ oneDriveUser userId ts f
  if r.1 then
    { result := ⟨f.filename, true, none⟩,
      hist := some ⟨f.filename, fp, uploadedAt⟩,
      calls := r.2 }
  else
    { result := ⟨f.filename, false, some (s2b ("Upload failed"))⟩,
      hist := none,
      calls := r.2 }

/-- The upload loop over all files, in order; `tsOf k` is the
`Date.now()` value observed for the `k`-th file. -/
def processFilesGo (σ : StorageCall → Bool) (oneDriveUser userId : Bytes)
    (uploadedAt : Int) (tsOf : Nat → Nat) : Nat → List FilePart → List FileOutcome
  | _, [] => []
  | k, f :: rest =>
    processFile σ oneDriveUser userId uploadedAt (tsOf k) f ::
      processFilesGo σ oneDriveUser userId uploadedAt tsOf (k + 1) rest

/-- `uploadResults.filter(r => r.success).length`
(`src/unnamed/part_000`, line 198). -/
def successCount (rs : List UploadResult) : Nat :=
  (rs.filter (fun r => r.success)).length

/-- Response of the upload endpoint (status plus the body fields it
ever sets). -/
structure UploadResp where
  status : Nat
  error : Option Bytes
  results : Option (List UploadResult)
  remainingUploads : Option Int
deriving DecidableEq

/-- One `updateOne` commit against the Token Store:
`$inc uploadsUsed by inc` and `$push` of `pushes`. -/
structure Commit where
  inc : Int
  pushes : List HistEntry
deriving DecidableEq

/-- The upload orchestrator after multipart decoding
(`src/unnamed/part_000`, lines 141-210).  `db` is the
`uploadtokens.findOne` lookup, `nowMs` the handler's `new Date()`,
`σ` the storage oracle.  Returns the response, the list of Token Store
update calls issued (the code issues at most one), and the chronological
trace of storage calls. -/
def processRequest (db : Bytes → Option UploadTokenRec) (nowMs : Int)
    (tsOf : Nat → Nat) (σ : StorageCall → Bool) (oneDriveUser : Bytes)
    (files : List FilePart) (token : Option Bytes) :
    UploadResp × List Commit × List StorageCall :=
  match token with
  | none => (⟨400, some (s2b ("Token is required")), none, none⟩, [], [])
  | some t =>
    if t = [] then (⟨400, some (s2b ("Token is required")), none, none⟩, [], [])
    else if files.length = 0 then
      (⟨400, some (s2b ("No files provided")), none, none⟩, [], [])
    else
      match db t with
      | none => (⟨410, some (s2b ("Upload link is no longer valid")), none, none⟩, [], [])
      | some uploadToken =>
        if uploadToken.status = TokenStatus.revoked ∨
            uploadToken.expiresAt < nowMs ∨
            uploadToken.maxUploads ≤ uploadToken.uploadsUsed then
          (⟨410, some (s2b ("Upload link is no longer valid")), none, none⟩, [], [])
        else
          let remaining : Int := uploadToken.maxUploads - uploadToken.uploadsUsed
          if remaining < (files.length : Int) then
            (⟨400, some (s2b ("Only " ++ toString remaining ++ " upload(s) remaining")),
              none, none⟩, [], [])
          else
            match firstViolation files with
            | some (Violation.mime f) =>
              (⟨400, some (s2b ("File type not allowed: ") ++ f.filename),
                none, none⟩, [], [])
            | some (Violation.size f) =>
              (⟨400, some (s2b ("File too large: ") ++ f.filename ++ s2b (". Max 50MB.")),
                none, none⟩, [], [])
            | none =>
              let outs := processFilesGo σ oneDriveUser uploadToken.userId nowMs tsOf 0 files
              let results := outs.map (fun o => o.result)
              let newUploads := outs.filterMap (fun o => o.hist)
              let sc := successCount results
              let commits : List Commit :=
                if 0 < sc then [⟨(sc : Int), newUploads⟩] else []
              (⟨200, none, some results, some (remaining - (sc : Int))⟩,
                commits, (outs.map (fun o => o.calls)).flatten)

/-- The full upload endpoint (`module.exports` of
`src/unnamed/part_000`): multipart decoding first; a parse throw is
caught by the surrounding try/catch and answered with
500 `Internal server error`. -/
def handleUpload (db : Bytes → Option UploadTokenRec) (nowMs : Int)
    (tsOf : Nat → Nat) (σ : StorageCall → Bool) (oneDriveUser : Bytes)
    (contentType body : Bytes) : UploadResp × List Commit × List StorageCall :=
  match parseMultipart contentType body with
  | none => (⟨500, some (s2b ("Internal server error")), none, none⟩, [], [])
  | some (files, tk) => processRequest db nowMs tsOf σ oneDriveUser files tk

/-- Response of the token status-check endpoint (status plus every body
field it ever sets). -/
structure CheckResp where
  status : Nat
  error : Option Bytes
  reason : Option Bytes
  valid : Option Bool
  clientName : Option Bytes
  remainingUploads : Option Int
  expiresAt : Option Int
deriving DecidableEq

/-- The token status-check endpoint (`src/api/tokenCheck/index.js`,
`module.exports`): 400 when no token, 404 `Invalid upload link` when the
token is not in the store, 410 with a `reason` when invalid, else 200
with the owner's display name and the remaining quota. -/
def handleTokenCheck (db : Bytes → Option UploadTokenRec)
    (users : Bytes → Option UserRec) (nowMs : Int)
    (token : Option Bytes) : CheckResp :=
  match token with
  | none => ⟨400, some (s2b ("Token is required")), none, none, none, none, none⟩
  | some t =>
    if t = [] then
      ⟨400, some (s2b ("Token is required")), none, none, none, none, none⟩
    else
      match db t with
      | none => ⟨404, some (s2b ("Invalid upload link")), none, none, none, none, none⟩
      | some uploadToken =>
        let isRevoked := uploadToken.status = TokenStatus.revoked
        let isExpired := uploadToken.expiresAt < nowMs
        let limitReached := uploadToken.maxUploads ≤ uploadToken.uploadsUsed
        if isRevoked ∨ isExpired ∨ limitReached then
          ⟨410, some (s2b ("Upload link is no longer valid")),
            some (if isRevoked then s2b ("revoked")
              else if isExpired then s2b ("expired")
              else s2b ("limit_reached")),
            none, none, none, none⟩
        else
          let clientName :=
            match users uploadToken.userId with
            | some u =>
              trimBytes ((u.firstName.getD []) ++ s2b (" ") ++ (u.lastName.getD []))
            | none => s2b ("Customer")
          ⟨200, none, none, some true, some clientName,
            some (uploadToken.maxUploads - uploadToken.uploadsUsed),
            some uploadToken.expiresAt⟩

/-! Concrete fixtures used by witnesses and counterexamples. -/

/-- Empty Token Store. -/
def dbEmpty : Bytes → Option UploadTokenRec := fun _ => none

/-- Empty Users collection. -/
def usersEmpty : Bytes → Option UserRec := fun _ => none

/-- Constant millisecond clock for path timestamps. -/
def tsZero : Nat → Nat := fun _ => 0

/-- Storage oracle answering 2xx to every call. -/
def sigTrue : StorageCall → Bool := fun _ => true

/-- A token whose expiry instant is exactly the probing time `5`. -/
def tokenAtBoundary : UploadTokenRec :=
  ⟨s2b ("tB"), s2b ("uB"), 5, 1, 0, TokenStatus.active, []⟩

/-- An active token with quota 5, one upload already used. -/
def utW : UploadTokenRec :=
  ⟨s2b ("tokW"), s2b ("userW"), 1000, 5, 1, TokenStatus.active, []⟩

/-- Store holding exactly `utW`. -/
def dbW : Bytes → Option UploadTokenRec :=
  fun t => if t = utW.token then some utW else none

/-- A small allowed PDF. -/
def fA : FilePart := ⟨s2b ("a.pdf"), s2b ("application/pdf"), [65, 65]⟩

/-- A small allowed PNG. -/
def fB : FilePart := ⟨s2b ("b.png"), s2b ("image/png"), [66, 66]⟩

/-- Oracle failing exactly the direct PUT of `fB` (as staged by `utW`
with clock `tsZero`), succeeding elsewhere. -/
def sigFailB : StorageCall → Bool := fun c =>
  decide (c ≠ StorageCall.smallPut
    (contentApiPath (s2b ("me")) (filePathFor (s2b ("userW")) 0 (s2b ("b.png")))) 2)

/-- Content type carrying boundary `X`. -/
def ct7 : Bytes := s2b ("multipart/form-data; boundary=X")

/-- Well-formed two-file body, token field first (value ` abc123`,
needing a trim). -/
def body7a : Bytes := s2b ("--X\r\nContent-Disposition: form-data; name=\"token\"\r\n\r\n abc123\r\n--X\r\nContent-Disposition: form-data; name=\"file1\"; filename=\"a.pdf\"\r\nContent-Type: application/pdf\r\n\r\nAA\r\n--X\r\nContent-Disposition: form-data; name=\"file2\"; filename=\"b.png\"\r\nContent-Type: image/png\r\n\r\nBB\r\n--X--")

/-- The same parts with the token field last. -/
def body7b : Bytes := s2b ("--X\r\nContent-Disposition: form-data; name=\"file1\"; filename=\"a.pdf\"\r\nContent-Type: application/pdf\r\n\r\nAA\r\n--X\r\nContent-Disposition: form-data; name=\"file2\"; filename=\"b.png\"\r\nContent-Type: image/png\r\n\r\nBB\r\n--X\r\nContent-Disposition: form-data; name=\"token\"\r\n\r\n abc123\r\n--X--")

/-- First decoded file of the C7 bodies. -/
def fileA7 : FilePart := ⟨s2b ("a.pdf"), s2b ("application/pdf"), s2b ("AA")⟩

/-- Second decoded file of the C7 bodies. -/
def fileB7 : FilePart := ⟨s2b ("b.png"), s2b ("image/png"), s2b ("BB")⟩

/-- A fresh active token with quota 10. -/
def utV : UploadTokenRec :=
  ⟨s2b ("tokV"), s2b ("userV"), 99999, 10, 0, TokenStatus.active, []⟩

/-- Store holding exactly `utV`. -/
def dbV : Bytes → Option UploadTokenRec :=
  fun t => if t = utV.token then some utV else none

/-- A file with a MIME type outside the allow-list. -/
def fBadMime : FilePart := ⟨s2b ("evil.xyz"), s2b ("application/x-evil"), [1]⟩

/-- An allowed-MIME file one byte over the 50 MiB cap. -/
def fHuge : FilePart := ⟨s2b ("big.pdf"), s2b ("application/pdf"), List.replicate 52428801 0⟩

/-- Another oversize allowed-MIME file (for the C9 counterexample). -/
def fHuge9 : FilePart := ⟨s2b ("giant.pdf"), s2b ("application/pdf"), List.replicate 52428801 7⟩

/-- A small file with a disallowed MIME type. -/
def fBad9 : FilePart := ⟨s2b ("notes.txt"), s2b ("text/plain"), [104, 105]⟩

/-- A token with only 2 of 3 uploads remaining. -/
def utOver : UploadTokenRec :=
  ⟨s2b ("tokO"), s2b ("userO"), 424242, 3, 1, TokenStatus.active, []⟩

/-- Store holding exactly `utOver`. -/
def dbOver : Bytes → Option UploadTokenRec :=
  fun t => if t = utOver.token then some utOver else none

/-- An allowed file of exactly 4 MiB. -/
def smallF : FilePart :=
  ⟨s2b ("s.pdf"), s2b ("application/pdf"), List.replicate 4194304 1⟩

/-- An allowed file of exactly 4 MiB + 1 byte. -/
def bigF : FilePart :=
  ⟨s2b ("big2.pdf"), s2b ("application/pdf"), List.replicate 4194305 2⟩

/-! Support lemmas. -/

lemma sendChunks_fst_eq_all (σ : StorageCall → Bool) (total : Nat) :
    ∀ rs, (sendChunks σ total rs).1 = ((sendChunks σ total rs).2.all σ) := by
  intro rs
  induction rs with
  | nil => simp [sendChunks]
  | cons p rest ih =>
    obtain ⟨s, e⟩ := p
    by_cases h : σ (StorageCall.chunkPut s e total) <;>
      simp [sendChunks, h, ih]

lemma uploadFile_fst_eq_all (σ : StorageCall → Bool) (u uid : Bytes)
    (ts : Nat) (f : FilePart) :
    (uploadFile σ u uid ts f).1 = ((uploadFile σ u uid ts f).2.all σ) := by
  by_cases hs : f.buffer.length ≤ chunkSize
  · simp [uploadFile, hs]
  · by_cases hσ : σ (StorageCall.createSession
        (sessionApiPath u (filePathFor uid ts f.filename)) f.filename) <;>
      simp [uploadFile, hs, hσ, sendChunks_fst_eq_all]

lemma sendChunks_all_true (σ : StorageCall → Bool) (total : Nat)
    (h : ∀ c, σ c = true) :
    ∀ rs, sendChunks σ total rs =
      (true, rs.map (fun p => StorageCall.chunkPut p.1 p.2 total)) := by
  intro rs
  induction rs with
  | nil => simp [sendChunks]
  | cons p rest ih =>
    obtain ⟨s, e⟩ := p
    simp [sendChunks, h, ih]

lemma chunkGo_nil (fuel len i : Nat) (h : ¬ i < len) : chunkGo fuel len i = [] := by
  cases fuel <;> simp [chunkGo, h]

lemma chunkGo_spec : ∀ (fuel i len : Nat), i < len → len ≤ i + fuel →
    (∃ rest, chunkGo fuel len i =
        (i, min (i + chunkSize - 1) (len - 1)) :: rest)
    ∧ List.Chain' (fun a b => b.1 = a.2 + 1) (chunkGo fuel len i)
    ∧ (∀ p ∈ chunkGo fuel len i,
        p.1 ≤ p.2 ∧ p.2 < len ∧ p.2 + 1 - p.1 ≤ chunkSize)
    ∧ ((chunkGo fuel len i).map (fun p => p.2 + 1 - p.1)).sum = len - i
    ∧ (chunkGo fuel len i).getLast?.map (fun p => p.2) = some (len - 1)
    ∧ List.Chain' (fun a b => a.1 < b.1) (chunkGo fuel len i) := by
  intro fuel
  have hcs1 : 1 ≤ chunkSize := by norm_num [chunkSize]
  induction fuel with
  | zero =>
    intro i len hi hle
    omega
  | succ fuel ih =>
    intro i len hi hle
    simp only [chunkGo, if_pos hi]
    by_cases hnext : i + chunkSize < len
    · have hle' : len ≤ i + chunkSize + fuel := by omega
      obtain ⟨⟨rest, hrest⟩, hchain, hmem, hsum, hlast, hinc⟩ :=
        ih (i + chunkSize) len hnext hle'
      have hmin : min (i + chunkSize - 1) (len - 1) = i + chunkSize - 1 := by omega
      refine ⟨⟨chunkGo fuel len (i + chunkSize), rfl⟩, ?_, ?_, ?_, ?_, ?_⟩
      · rw [hrest]
        refine List.Chain'.cons ?_ (hrest ▸ hchain)
        simp only [hmin]
        omega
      · intro p hp
        rcases List.mem_cons.mp hp with h | h
        · subst h
          simp only [hmin]
          refine ⟨by omega, by omega, by omega⟩
        · exact hmem p h
      · simp only [List.map_cons, List.sum_cons, hsum, hmin]
        omega
      · rw [hrest]
        rw [hrest] at hlast
        rw [List.getLast?_cons_cons]
        exact hlast
      · rw [hrest]
        refine List.Chain'.cons ?_ (hrest ▸ hinc)
        omega
    · have hrec : chunkGo fuel len (i + chunkSize) = [] := chunkGo_nil _ _ _ hnext
      have hmin : min (i + chunkSize - 1) (len - 1) = len - 1 := by omega
      rw [hrec]
      refine ⟨⟨[], rfl⟩, ?_, ?_, ?_, ?_, ?_⟩
      · simp
      · intro p hp
        rcases List.mem_cons.mp hp with h | h
        · subst h
          simp only [hmin]
          refine ⟨by omega, by omega, by omega⟩
        · simp at h
      · simp only [List.map_cons, List.map_nil, List.sum_cons, List.sum_nil, hmin]
        omega
      · simp [hmin]
      · simp

lemma chunkUploads_spec (len : Nat) (h : 0 < len) :
    (∃ rest, chunkUploads len = (0, min (chunkSize - 1) (len - 1)) :: rest)
    ∧ List.Chain' (fun a b => b.1 = a.2 + 1) (chunkUploads len)
    ∧ (∀ p ∈ chunkUploads len, p.1 ≤ p.2 ∧ p.2 < len ∧ p.2 + 1 - p.1 ≤ chunkSize)
    ∧ ((chunkUploads len).map (fun p => p.2 + 1 - p.1)).sum = len
    ∧ (chunkUploads len).getLast?.map (fun p => p.2) = some (len - 1)
    ∧ List.Chain' (fun a b => a.1 < b.1) (chunkUploads len) := by
  have := chunkGo_spec len 0 len h (by omega)
  simpa [chunkUploads] using this

lemma firstViolation_eq_none_iff : ∀ files : List FilePart,
    firstViolation files = none ↔
      ∀ f ∈ files, f.mimeType ∈ ALLOWED_MIME_TYPES ∧ f.buffer.length ≤ MAX_FILE_SIZE := by
  intro files
  induction files with
  | nil => simp [firstViolation]
  | cons f rest ih =>
    by_cases hm : f.mimeType ∈ ALLOWED_MIME_TYPES
    · by_cases hsz : MAX_FILE_SIZE < f.buffer.length
      · simp only [firstViolation, if_pos hm, if_pos hsz]
        apply iff_of_false
        · simp
        · intro hall
          exact absurd hsz (not_lt.mpr (hall f (List.mem_cons_self f rest)).2)
      · simp only [firstViolation, if_pos hm, if_neg hsz]
        rw [ih]
        constructor
        · intro hall g hg
          rcases List.mem_cons.mp hg with rfl | hg
          · exact ⟨hm, not_lt.mp hsz⟩
          · exact hall g hg
        · intro hall g hg
          exact hall g (List.mem_cons_of_mem _ hg)
    · simp only [firstViolation, if_neg hm]
      apply iff_of_false
      · simp
      · intro hall
        exact hm (hall f (List.mem_cons_self f rest)).1

lemma firstViolation_mime_spec : ∀ (files : List FilePart) (f : FilePart),
    firstViolation files = some (Violation.mime f) →
      f ∈ files ∧ f.mimeType ∉ ALLOWED_MIME_TYPES := by
  intro files
  induction files with
  | nil => simp [firstViolation]
  | cons g rest ih =>
    intro f h
    by_cases hm : g.mimeType ∈ ALLOWED_MIME_TYPES
    · by_cases hsz : MAX_FILE_SIZE < g.buffer.length
      · simp [firstViolation, hm, hsz] at h
      · simp only [firstViolation, if_pos hm, if_neg hsz] at h
        obtain ⟨hf, hf2⟩ := ih f h
        exact ⟨List.mem_cons_of_mem _ hf, hf2⟩
    · simp only [firstViolation, if_neg hm, Option.some.injEq] at h
      obtain rfl : g = f := by
        cases h
        rfl
      exact ⟨List.mem_cons_self _ _, hm⟩

lemma firstViolation_size_spec : ∀ (files : List FilePart) (f : FilePart),
    firstViolation files = some (Violation.size f) →
      f ∈ files ∧ f.mimeType ∈ ALLOWED_MIME_TYPES ∧ MAX_FILE_SIZE < f.buffer.length := by
  intro files
  induction files with
  | nil => simp [firstViolation]
  | cons g rest ih =>
    intro f h
    by_cases hm : g.mimeType ∈ ALLOWED_MIME_TYPES
    · by_cases hsz : MAX_FILE_SIZE < g.buffer.length
      · simp only [firstViolation, if_pos hm, if_pos hsz, Option.some.injEq] at h
        obtain rfl : g = f := by
          cases h
          rfl
        exact ⟨List.mem_cons_self _ _, hm, hsz⟩
      · simp only [firstViolation, if_pos hm, if_neg hsz] at h
        obtain ⟨h1, h2, h3⟩ := ih f h
        exact ⟨List.mem_cons_of_mem _ h1, h2, h3⟩
    · simp [firstViolation, hm] at h

lemma processFile_result_eq (σ : StorageCall → Bool) (u uid : Bytes)
    (ua : Int) (ts : Nat) (f : FilePart) :
    (processFile σ u uid ua ts f).result =
      ⟨f.filename, (uploadFile σ u uid ts f).1,
        if (uploadFile σ u uid ts f).1 = true then none
        else some (s2b ("Upload failed"))⟩ := by
  by_cases h : (uploadFile σ u uid ts f).1 <;> simp [processFile, h]

lemma processFile_hist_isSome (σ : StorageCall → Bool) (u uid : Bytes)
    (ua : Int) (ts : Nat) (f : FilePart) :
    (processFile σ u uid ua ts f).hist.isSome =
      (processFile σ u uid ua ts f).result.success := by
  by_cases h : (uploadFile σ u uid ts f).1 <;> simp [processFile, h]

lemma processFilesGo_length (σ : StorageCall → Bool) (u uid : Bytes)
    (ua : Int) (tsOf : Nat → Nat) :
    ∀ (files : List FilePart) (k : Nat),
      (processFilesGo σ u uid ua tsOf k files).length = files.length := by
  intro files
  induction files with
  | nil => intro k; simp [processFilesGo]
  | cons f rest ih => intro k; simp [processFilesGo, ih]

lemma processFilesGo_getElem? (σ : StorageCall → Bool) (u uid : Bytes)
    (ua : Int) (tsOf : Nat → Nat) :
    ∀ (files : List FilePart) (j k : Nat) (f : FilePart),
      files[k]? = some f →
      (processFilesGo σ u uid ua tsOf j files)[k]? =
        some (processFile σ u uid ua (tsOf (j + k)) f) := by
  intro files
  induction files with
  | nil => intro j k f h; simp at h
  | cons g rest ih =>
    intro j k f h
    cases k with
    | zero =>
      simp only [List.getElem?_cons_zero, Option.some.injEq] at h
      subst h
      simp [processFilesGo]
    | succ k =>
      simp only [List.getElem?_cons_succ] at h
      have := ih (j + 1) k f h
      have harith : j + 1 + k = j + (k + 1) := by omega
      rw [harith] at this
      simpa [processFilesGo] using this

lemma processFilesGo_hist_length (σ : StorageCall → Bool) (u uid : Bytes)
    (ua : Int) (tsOf : Nat → Nat) :
    ∀ (files : List FilePart) (k : Nat),
      ((processFilesGo σ u uid ua tsOf k files).filterMap (fun o => o.hist)).length =
        successCount ((processFilesGo σ u uid ua tsOf k files).map (fun o => o.result)) := by
  intro files
  induction files with
  | nil => intro k; simp [processFilesGo, successCount]
  | cons f rest ih =>
    intro k
    by_cases h : (uploadFile σ u uid (tsOf k) f).1 <;>
      simp [processFilesGo, processFile, h, successCount, List.filter_cons,
        List.filterMap_cons, ih]

lemma successCount_le_length (rs : List UploadResult) :
    successCount rs ≤ rs.length :=
  List.length_filter_le _ _

lemma processRequest_success (db : Bytes → Option UploadTokenRec) (nowMs : Int)
    (tsOf : Nat → Nat) (σ : StorageCall → Bool) (user : Bytes)
    (files : List FilePart) (t : Bytes) (ut : UploadTokenRec)
    (ht : ¬ t = []) (hf : ¬ files = []) (hdb : db t = some ut)
    (hval : ¬ (ut.status = TokenStatus.revoked ∨ ut.expiresAt < nowMs ∨
      ut.maxUploads ≤ ut.uploadsUsed))
    (hn : (files.length : Int) ≤ ut.maxUploads - ut.uploadsUsed)
    (hfv : firstViolation files = none) :
    processRequest db nowMs tsOf σ user files (some t) =
      (⟨200, none,
        some ((processFilesGo σ user ut.userId nowMs tsOf 0 files).map (fun o => o.result)),
        some ((ut.maxUploads - ut.uploadsUsed) -
          (successCount ((processFilesGo σ user ut.userId nowMs tsOf 0 files).map
            (fun o => o.result)) : Int))⟩,
       (if 0 < successCount ((processFilesGo σ user ut.userId nowMs tsOf 0 files).map
            (fun o => o.result)) then
          [⟨(successCount ((processFilesGo σ user ut.userId nowMs tsOf 0 files).map
              (fun o => o.result)) : Int),
            (processFilesGo σ user ut.userId nowMs tsOf 0 files).filterMap
              (fun o => o.hist)⟩]
        else []),
       ((processFilesGo σ user ut.userId nowMs tsOf 0 files).map (fun o => o.calls)).flatten) := by
  have hlen : ¬ files.length = 0 := by
    simpa [List.length_eq_zero] using hf
  simp only [processRequest, if_neg ht, if_neg hlen, hdb, if_neg hval,
    if_neg (not_lt.mpr hn), hfv]

lemma processRequest_notfound (db : Bytes → Option UploadTokenRec) (nowMs : Int)
    (tsOf : Nat → Nat) (σ : StorageCall → Bool) (user : Bytes)
    (files : List FilePart) (t : Bytes)
    (ht : ¬ t = []) (hf : ¬ files = []) (hdb : db t = none) :
    processRequest db nowMs tsOf σ user files (some t) =
      (⟨410, some (s2b ("Upload link is no longer valid")), none, none⟩, [], []) := by
  have hlen : ¬ files.length = 0 := by
    simpa [List.length_eq_zero] using hf
  simp only [processRequest, if_neg ht, if_neg hlen, hdb]

lemma processRequest_toomany (db : Bytes → Option UploadTokenRec) (nowMs : Int)
    (tsOf : Nat → Nat) (σ : StorageCall → Bool) (user : Bytes)
    (files : List FilePart) (t : Bytes) (ut : UploadTokenRec)
    (ht : ¬ t = []) (hf : ¬ files = []) (hdb : db t = some ut)
    (hval : ¬ (ut.status = TokenStatus.revoked ∨ ut.expiresAt < nowMs ∨
      ut.maxUploads ≤ ut.uploadsUsed))
    (hover : ut.maxUploads - ut.uploadsUsed < (files.length : Int)) :
    processRequest db nowMs tsOf σ user files (some t) =
      (⟨400, some (s2b ("Only " ++ toString (ut.maxUploads - ut.uploadsUsed) ++
        " upload(s) remaining")), none, none⟩, [], []) := by
  have hlen : ¬ files.length = 0 := by
    simpa [List.length_eq_zero] using hf
  simp only [processRequest, if_neg ht, if_neg hlen, hdb, if_neg hval, if_pos hover]

lemma processRequest_mimeviol (db : Bytes → Option UploadTokenRec) (nowMs : Int)
    (tsOf : Nat → Nat) (σ : StorageCall → Bool) (user : Bytes)
    (files : List FilePart) (t : Bytes) (ut : UploadTokenRec) (f : FilePart)
    (ht : ¬ t = []) (hf : ¬ files = []) (hdb : db t = some ut)
    (hval : ¬ (ut.status = TokenStatus.revoked ∨ ut.expiresAt < nowMs ∨
      ut.maxUploads ≤ ut.uploadsUsed))
    (hn : (files.length : Int) ≤ ut.maxUploads - ut.uploadsUsed)
    (hfv : firstViolation files = some (Violation.mime f)) :
    processRequest db nowMs tsOf σ user files (some t) =
      (⟨400, some (s2b ("File type not allowed: ") ++ f.filename), none, none⟩, [], []) := by
  have hlen : ¬ files.length = 0 := by
    simpa [List.length_eq_zero] using hf
  simp only [processRequest, if_neg ht, if_neg hlen, hdb, if_neg hval,
    if_neg (not_lt.mpr hn), hfv]

lemma processRequest_sizeviol (db : Bytes → Option UploadTokenRec) (nowMs : Int)
    (tsOf : Nat → Nat) (σ : StorageCall → Bool) (user : Bytes)
    (files : List FilePart) (t : Bytes) (ut : UploadTokenRec) (f : FilePart)
    (ht : ¬ t = []) (hf : ¬ files = []) (hdb : db t = some ut)
    (hval : ¬ (ut.status = TokenStatus.revoked ∨ ut.expiresAt < nowMs ∨
      ut.maxUploads ≤ ut.uploadsUsed))
    (hn : (files.length : Int) ≤ ut.maxUploads - ut.uploadsUsed)
    (hfv : firstViolation files = some (Violation.size f)) :
    processRequest db nowMs tsOf σ user files (some t) =
      (⟨400, some (s2b ("File too large: ") ++ f.filename ++ s2b (". Max 50MB.")),
        none, none⟩, [], []) := by
  have hlen : ¬ files.length = 0 := by
    simpa [List.length_eq_zero] using hf
  simp only [processRequest, if_neg ht, if_neg hlen, hdb, if_neg hval,
    if_neg (not_lt.mpr hn), hfv]

/-! Claim theorems. -/

/-- Claim C1 counterexample: the claim's validity condition requires
`now < expiresAt`, but `isValid` answers true for a token whose expiry
instant equals the current instant (the code tests `expiresAt < now`). -/
theorem C1_counterexample :
    isValid tokenAtBoundary 5 = true ∧ ¬ ((5 : Int) < tokenAtBoundary.expiresAt) := by
  decide

/-- Claim C1 (amended): the validity check returns true iff
`status ≠ revoked` and the expiry instant has not strictly passed
(`now ≤ expiresAt`) and `uploadsUsed < maxUploads`; flipping any one of
the three conditions makes it false. -/
theorem C1_amended_validity (t : UploadTokenRec) (now : Int) :
    isValid t now = true ↔
      (¬ t.status = TokenStatus.revoked ∧ now ≤ t.expiresAt ∧
        t.uploadsUsed < t.maxUploads) := by
  simp only [isValid]
  split_ifs with h1 h2 h3
  · simp [h1]
  · simp [h1]
    omega
  · simp [h1]
    omega
  · simp [h1]
    omega

/-- Claim C4 counterexample: a request whose `Content-Type` has no
boundary is answered 500 (the parse throw reaches the generic catch),
not 400. -/
theorem C4_counterexample :
    extractBoundary (s2b ("text/plain")) = none
    ∧ (handleUpload dbEmpty 0 tsZero sigTrue (s2b ("me"))
        (s2b ("text/plain")) (s2b ("x"))).1.status = 500
    ∧ ¬ (handleUpload dbEmpty 0 tsZero sigTrue (s2b ("me"))
        (s2b ("text/plain")) (s2b ("x"))).1.status = 400 := by
  decide

/-- Claim C4 (amended): for every request whose `Content-Type` header
contains no extractable boundary parameter, the upload endpoint responds
500 `Internal server error` (the multipart throw is swallowed by the
handler's try/catch), before any token or file validation: no Token
Store commit and no storage call is made, whatever the store contents. -/
theorem C4_amended_no_boundary (db : Bytes → Option UploadTokenRec)
    (nowMs : Int) (tsOf : Nat → Nat) (σ : StorageCall → Bool)
    (user ct body : Bytes) (h : extractBoundary ct = none) :
    handleUpload db nowMs tsOf σ user ct body =
      (⟨500, some (s2b ("Internal server error")), none, none⟩, [], []) := by
  simp only [handleUpload, parseMultipart, h]

/-- Witness for C4: the amended theorem applied to the concrete
boundary-free request. -/
theorem C4_amended_no_boundary_witness :
    extractBoundary (s2b ("text/plain; charset=utf-8")) = none
    ∧ handleUpload dbEmpty 7 tsZero sigTrue (s2b ("me"))
        (s2b ("text/plain; charset=utf-8")) (s2b ("zz")) =
      (⟨500, some (s2b ("Internal server error")), none, none⟩, [], []) :=
  ⟨by decide,
   C4_amended_no_boundary dbEmpty 7 tsZero sigTrue (s2b ("me"))
     (s2b ("text/plain; charset=utf-8")) (s2b ("zz")) (by decide)⟩

set_option maxRecDepth 20000 in
/-- Claim C7: decoding a well-formed multipart body with one token field
and two file parts yields the trimmed token value and exactly the two
files in order of appearance, whether the token field comes first or
last. -/
theorem C7_decode_token_and_order :
    parseMultipart ct7 body7a = some ([fileA7, fileB7], some (s2b ("abc123")))
    ∧ parseMultipart ct7 body7b = some ([fileA7, fileB7], some (s2b ("abc123"))) := by
  constructor <;> decide

/-- Claim C2: for a batch of N files of which S succeed, the commit
increments `uploadsUsed` by exactly S and appends exactly S history
entries in a single Token Store update; the commit happens only when
S ≥ 1 (S counts only successful files), and `uploadsUsed` never exceeds
`maxUploads`. -/
theorem C2_commit_exact (db : Bytes → Option UploadTokenRec) (nowMs : Int)
    (tsOf : Nat → Nat) (σ : StorageCall → Bool) (user : Bytes)
    (files : List FilePart) (t : Bytes) (ut : UploadTokenRec)
    (ht : ¬ t = []) (hf : ¬ files = []) (hdb : db t = some ut)
    (hval : ¬ (ut.status = TokenStatus.revoked ∨ ut.expiresAt < nowMs ∨
      ut.maxUploads ≤ ut.uploadsUsed))
    (hn : (files.length : Int) ≤ ut.maxUploads - ut.uploadsUsed)
    (hok : ∀ f ∈ files, f.mimeType ∈ ALLOWED_MIME_TYPES ∧
      f.buffer.length ≤ MAX_FILE_SIZE) :
    (processRequest db nowMs tsOf σ user files (some t)).1.status = 200
    ∧ ∃ R es,
      (processRequest db nowMs tsOf σ user files (some t)).1.results = some R
      ∧ R.length = files.length
      ∧ es.length = successCount R
      ∧ (processRequest db nowMs tsOf σ user files (some t)).2.1 =
          (if 0 < successCount R then [⟨(successCount R : Int), es⟩] else [])
      ∧ ut.uploadsUsed + (successCount R : Int) ≤ ut.maxUploads := by
  have hfv : firstViolation files = none := (firstViolation_eq_none_iff files).mpr hok
  rw [processRequest_success db nowMs tsOf σ user files t ut ht hf hdb hval hn hfv]
  refine ⟨rfl,
    (processFilesGo σ user ut.userId nowMs tsOf 0 files).map (fun o => o.result),
    (processFilesGo σ user ut.userId nowMs tsOf 0 files).filterMap (fun o => o.hist),
    rfl, ?_, ?_, rfl, ?_⟩
  · rw [List.length_map, processFilesGo_length]
  · exact processFilesGo_hist_length σ user ut.userId nowMs tsOf files 0
  · have h1 := successCount_le_length
      ((processFilesGo σ user ut.userId nowMs tsOf 0 files).map (fun o => o.result))
    have h2 : ((processFilesGo σ user ut.userId nowMs tsOf 0 files).map
        (fun o => o.result)).length = files.length := by
      rw [List.length_map, processFilesGo_length]
    omega

/-- Witness for C2: two files against a valid token with quota
headroom, the second file's storage call failing: one increment and one
history entry are committed in a single update. -/
theorem C2_commit_exact_witness :
    (processRequest dbW 500 tsZero sigFailB (s2b ("me")) [fA, fB]
      (some (s2b ("tokW")))).1.status = 200
    ∧ (processRequest dbW 500 tsZero sigFailB (s2b ("me")) [fA, fB]
        (some (s2b ("tokW")))).2.1 =
      [⟨1, [⟨s2b ("a.pdf"), filePathFor (s2b ("userW")) 0 (s2b ("a.pdf")), 500⟩]⟩] :=
  ⟨(C2_commit_exact dbW 500 tsZero sigFailB (s2b ("me")) [fA, fB]
      (s2b ("tokW")) utW (by decide) (by decide) (by decide) (by decide)
      (by decide) (by decide)).1,
   by decide⟩

/-- Claim C3: per-file failure isolation: every file gets exactly one
`results` entry carrying its filename, succeeding iff every one of its
storage calls got a 2xx, with `error = 'Upload failed'` on failure;
siblings are unaffected, the response stays 200, and with two files of
which one succeeds the commit is one increment plus one history entry. -/
theorem C3_failure_isolation (db : Bytes → Option UploadTokenRec) (nowMs : Int)
    (tsOf : Nat → Nat) (σ : StorageCall → Bool) (user : Bytes)
    (files : List FilePart) (t : Bytes) (ut : UploadTokenRec)
    (ht : ¬ t = []) (hf : ¬ files = []) (hdb : db t = some ut)
    (hval : ¬ (ut.status = TokenStatus.revoked ∨ ut.expiresAt < nowMs ∨
      ut.maxUploads ≤ ut.uploadsUsed))
    (hn : (files.length : Int) ≤ ut.maxUploads - ut.uploadsUsed)
    (hok : ∀ f ∈ files, f.mimeType ∈ ALLOWED_MIME_TYPES ∧
      f.buffer.length ≤ MAX_FILE_SIZE) :
    (processRequest db nowMs tsOf σ user files (some t)).1.status = 200
    ∧ ∃ R,
      (processRequest db nowMs tsOf σ user files (some t)).1.results = some R
      ∧ R.length = files.length
      ∧ (∀ (k : Nat) (f : FilePart), files[k]? = some f →
          R[k]? = some ⟨f.filename, (uploadFile σ user ut.userId (tsOf k) f).1,
            if (uploadFile σ user ut.userId (tsOf k) f).1 = true then none
            else some (s2b ("Upload failed"))⟩
          ∧ ((uploadFile σ user ut.userId (tsOf k) f).1 = true ↔
              ∀ c ∈ (uploadFile σ user ut.userId (tsOf k) f).2, σ c = true))
      ∧ (files.length = 2 → successCount R = 1 →
          ∃ e, (processRequest db nowMs tsOf σ user files (some t)).2.1 = [⟨1, [e]⟩]) := by
  have hfv : firstViolation files = none := (firstViolation_eq_none_iff files).mpr hok
  rw [processRequest_success db nowMs tsOf σ user files t ut ht hf hdb hval hn hfv]
  refine ⟨rfl,
    (processFilesGo σ user ut.userId nowMs tsOf 0 files).map (fun o => o.result),
    rfl, ?_, ?_, ?_⟩
  · rw [List.length_map, processFilesGo_length]
  · intro k f hk
    constructor
    · rw [List.getElem?_map, processFilesGo_getElem? σ user ut.userId nowMs tsOf files 0 k f hk]
      simp only [Option.map_some', Nat.zero_add]
      rw [processFile_result_eq]
    · rw [uploadFile_fst_eq_all]
      exact List.all_eq_true
  · intro h2 hS
    have heslen : ((processFilesGo σ user ut.userId nowMs tsOf 0 files).filterMap
        (fun o => o.hist)).length = 1 := by
      rw [processFilesGo_hist_length σ user ut.userId nowMs tsOf files 0]
      exact hS
    obtain ⟨e, he⟩ := List.length_eq_one.mp heslen
    refine ⟨e, ?_⟩
    rw [hS]
    simp only [Nat.lt_irrefl, if_pos Nat.zero_lt_one, he, Nat.cast_one]

/-- Witness for C3: same two-file batch, one storage failure: per-file
results in order, 200, single commit. -/
theorem C3_failure_isolation_witness :
    (processRequest dbW 500 tsZero sigFailB (s2b ("me")) [fA, fB]
      (some (s2b ("tokW")))).1.status = 200
    ∧ (processRequest dbW 500 tsZero sigFailB (s2b ("me")) [fA, fB]
        (some (s2b ("tokW")))).1.results =
      some [⟨s2b ("a.pdf"), true, none⟩,
        ⟨s2b ("b.png"), false, some (s2b ("Upload failed"))⟩]
    ∧ (processRequest dbW 500 tsZero sigFailB (s2b ("me")) [fA, fB]
        (some (s2b ("tokW")))).2.1.length = 1 :=
  ⟨(C3_failure_isolation dbW 500 tsZero sigFailB (s2b ("me")) [fA, fB]
      (s2b ("tokW")) utW (by decide) (by decide) (by decide) (by decide)
      (by decide) (by decide)).1,
   by decide, by decide⟩

/-- Claim C8: a valid token with fewer remaining uploads than decoded
files is rejected 400 with the exact remaining count in the message,
with no commit and no storage call. -/
theorem C8_too_many_files (db : Bytes → Option UploadTokenRec) (nowMs : Int)
    (tsOf : Nat → Nat) (σ : StorageCall → Bool) (user : Bytes)
    (files : List FilePart) (t : Bytes) (ut : UploadTokenRec)
    (ht : ¬ t = []) (hf : ¬ files = []) (hdb : db t = some ut)
    (hval : ¬ (ut.status = TokenStatus.revoked ∨ ut.expiresAt < nowMs ∨
      ut.maxUploads ≤ ut.uploadsUsed))
    (hover : ut.maxUploads - ut.uploadsUsed < (files.length : Int)) :
    (processRequest db nowMs tsOf σ user files (some t)).1.status = 400
    ∧ (processRequest db nowMs tsOf σ user files (some t)).1.error =
        some (s2b ("Only " ++ toString (ut.maxUploads - ut.uploadsUsed) ++
          " upload(s) remaining"))
    ∧ List.IsInfix (s2b (toString (ut.maxUploads - ut.uploadsUsed)))
        ((processRequest db nowMs tsOf σ user files (some t)).1.error.getD [])
    ∧ (processRequest db nowMs tsOf σ user files (some t)).2.1 = []
    ∧ (processRequest db nowMs tsOf σ user files (some t)).2.2 = [] := by
  rw [processRequest_toomany db nowMs tsOf σ user files t ut ht hf hdb hval hover]
  refine ⟨rfl, rfl, ?_, rfl, rfl⟩
  have hsplit : s2b ("Only " ++ toString (ut.maxUploads - ut.uploadsUsed) ++
      " upload(s) remaining") =
      s2b ("Only ") ++ s2b (toString (ut.maxUploads - ut.uploadsUsed)) ++
        s2b (" upload(s) remaining") := by
    simp [s2b, String.toList]
  refine ⟨s2b ("Only "), s2b (" upload(s) remaining"), ?_⟩
  simp only [Option.getD_some, hsplit]

/-- Witness for C8: three files against 2 remaining uploads: the
message carries the exact remaining count 2. -/
theorem C8_too_many_files_witness :
    (processRequest dbOver 0 tsZero sigTrue (s2b ("me")) [fA, fB, fA]
      (some (s2b ("tokO")))).1.status = 400
    ∧ (processRequest dbOver 0 tsZero sigTrue (s2b ("me")) [fA, fB, fA]
        (some (s2b ("tokO")))).1.error = some (s2b ("Only 2 upload(s) remaining"))
    ∧ (processRequest dbOver 0 tsZero sigTrue (s2b ("me")) [fA, fB, fA]
        (some (s2b ("tokO")))).2.2 = [] :=
  ⟨(C8_too_many_files dbOver 0 tsZero sigTrue (s2b ("me")) [fA, fB, fA]
      (s2b ("tokO")) utOver (by decide) (by decide) (by decide) (by decide)
      (by decide)).1,
   by decide, by decide⟩

/-- Claim C10: an unknown token gets 404 `Invalid upload link` from the
status-check endpoint but 410 `Upload link is no longer valid` from the
upload endpoint, so token existence is observable only through the
status-check path. -/
theorem C10_unknown_token_status_split (db : Bytes → Option UploadTokenRec)
    (users : Bytes → Option UserRec) (nowMs : Int) (tsOf : Nat → Nat)
    (σ : StorageCall → Bool) (user : Bytes) (files : List FilePart) (t : Bytes)
    (hdb : db t = none) (ht : ¬ t = []) (hf : ¬ files = []) :
    (handleTokenCheck db users nowMs (some t)).status = 404
    ∧ (handleTokenCheck db users nowMs (some t)).error =
        some (s2b ("Invalid upload link"))
    ∧ (processRequest db nowMs tsOf σ user files (some t)).1.status = 410
    ∧ (processRequest db nowMs tsOf σ user files (some t)).1.error =
        some (s2b ("Upload link is no longer valid")) := by
  rw [processRequest_notfound db nowMs tsOf σ user files t ht hf hdb]
  simp only [handleTokenCheck, if_neg ht, hdb]
  exact ⟨trivial, trivial, trivial, trivial⟩

/-- Witness for C10: a token absent from the store probed against both
endpoints. -/
theorem C10_unknown_token_status_split_witness :
    (handleTokenCheck dbEmpty usersEmpty 0 (some (s2b ("ghost")))).status = 404
    ∧ (handleTokenCheck dbEmpty usersEmpty 0 (some (s2b ("ghost")))).error =
        some (s2b ("Invalid upload link"))
    ∧ (processRequest dbEmpty 0 tsZero sigTrue (s2b ("me")) [fA]
        (some (s2b ("ghost")))).1.status = 410
    ∧ (processRequest dbEmpty 0 tsZero sigTrue (s2b ("me")) [fA]
        (some (s2b ("ghost")))).1.error =
        some (s2b ("Upload link is no longer valid")) :=
  C10_unknown_token_status_split dbEmpty usersEmpty 0 tsZero sigTrue
    (s2b ("me")) [fA] (s2b ("ghost")) (by decide) (by decide) (by decide)

/-- Claim C5 counterexample: a batch whose first file has a disallowed
MIME type and whose second file exceeds 50 MiB is answered with the
MIME error naming the first file, not `FileTooLarge` naming the
oversize one. -/
theorem C5_counterexample :
    MAX_FILE_SIZE < fHuge.buffer.length
    ∧ (processRequest dbV 0 tsZero sigTrue (s2b ("me")) [fBadMime, fHuge]
        (some (s2b ("tokV")))).1.status = 400
    ∧ (processRequest dbV 0 tsZero sigTrue (s2b ("me")) [fBadMime, fHuge]
        (some (s2b ("tokV")))).1.error =
      some (s2b ("File type not allowed: ") ++ fBadMime.filename)
    ∧ ¬ (processRequest dbV 0 tsZero sigTrue (s2b ("me")) [fBadMime, fHuge]
        (some (s2b ("tokV")))).1.error =
      some (s2b ("File too large: ") ++ fHuge.filename ++ s2b (". Max 50MB.")) := by
  refine ⟨?_, by decide, by decide, by decide⟩
  norm_num [fHuge, MAX_FILE_SIZE]

/-- Claim C5 (amended): a batch containing a file over 50 MiB is
rejected 400 before any storage call or commit; the response is
`FileTooLarge` naming the oversize file when the size violation is the
first one found by the in-order MIME-then-size check; a file of exactly
50 MiB (52428800 bytes) passes the size check. -/
theorem C5_amended_size_cap (db : Bytes → Option UploadTokenRec) (nowMs : Int)
    (tsOf : Nat → Nat) (σ : StorageCall → Bool) (user : Bytes)
    (files : List FilePart) (t : Bytes) (ut : UploadTokenRec)
    (ht : ¬ t = []) (hf : ¬ files = []) (hdb : db t = some ut)
    (hval : ¬ (ut.status = TokenStatus.revoked ∨ ut.expiresAt < nowMs ∨
      ut.maxUploads ≤ ut.uploadsUsed))
    (hn : (files.length : Int) ≤ ut.maxUploads - ut.uploadsUsed)
    (hbig : ∃ f ∈ files, MAX_FILE_SIZE < f.buffer.length) :
    (processRequest db nowMs tsOf σ user files (some t)).1.status = 400
    ∧ (processRequest db nowMs tsOf σ user files (some t)).2.1 = []
    ∧ (processRequest db nowMs tsOf σ user files (some t)).2.2 = []
    ∧ (∀ g : FilePart, firstViolation files = some (Violation.size g) →
        (processRequest db nowMs tsOf σ user files (some t)).1.error =
          some (s2b ("File too large: ") ++ g.filename ++ s2b (". Max 50MB."))
        ∧ g ∈ files ∧ MAX_FILE_SIZE < g.buffer.length)
    ∧ (∀ g : FilePart, g.mimeType ∈ ALLOWED_MIME_TYPES →
        g.buffer.length = 52428800 → firstViolation [g] = none) := by
  have hboundary : ∀ g : FilePart, g.mimeType ∈ ALLOWED_MIME_TYPES →
      g.buffer.length = 52428800 → firstViolation [g] = none := by
    intro g h1 h2
    have h3 : ¬ MAX_FILE_SIZE < g.buffer.length := by
      rw [h2]
      norm_num [MAX_FILE_SIZE]
    simp [firstViolation, h1, h3]
  have hne : ¬ firstViolation files = none := by
    intro h
    obtain ⟨f, hfmem, hsz⟩ := hbig
    exact absurd hsz (not_lt.mpr ((firstViolation_eq_none_iff files).mp h f hfmem).2)
  cases hv : firstViolation files with
  | none => exact absurd hv hne
  | some v =>
    cases v with
    | mime g =>
      rw [processRequest_mimeviol db nowMs tsOf σ user files t ut g ht hf hdb hval hn hv]
      refine ⟨rfl, rfl, rfl, ?_, hboundary⟩
      intro g' hg'
      injection hg' with hg2
      injection hg2
    | size g =>
      rw [processRequest_sizeviol db nowMs tsOf σ user files t ut g ht hf hdb hval hn hv]
      refine ⟨rfl, rfl, rfl, ?_, hboundary⟩
      intro g' hg'
      injection hg' with hg2
      injection hg2 with hg3
      subst hg3
      obtain ⟨hm1, _, hm3⟩ := firstViolation_size_spec files g hv
      exact ⟨rfl, hm1, hm3⟩

/-- Witness for C5: a lone oversize PDF is rejected 400 with the
`File too large` message, no commit and no storage call. -/
theorem C5_amended_size_cap_witness :
    MAX_FILE_SIZE < fHuge.buffer.length
    ∧ (processRequest dbV 0 tsZero sigTrue (s2b ("me")) [fHuge]
        (some (s2b ("tokV")))).1.status = 400
    ∧ (processRequest dbV 0 tsZero sigTrue (s2b ("me")) [fHuge]
        (some (s2b ("tokV")))).2.1 = []
    ∧ (processRequest dbV 0 tsZero sigTrue (s2b ("me")) [fHuge]
        (some (s2b ("tokV")))).2.2 = []
    ∧ (processRequest dbV 0 tsZero sigTrue (s2b ("me")) [fHuge]
        (some (s2b ("tokV")))).1.error =
      some (s2b ("File too large: ") ++ fHuge.filename ++ s2b (". Max 50MB.")) := by
  have hsz : MAX_FILE_SIZE < fHuge.buffer.length := by
    norm_num [fHuge, MAX_FILE_SIZE]
  have h := C5_amended_size_cap dbV 0 tsZero sigTrue (s2b ("me")) [fHuge]
    (s2b ("tokV")) utV (by decide) (by decide) (by decide) (by decide)
    (by decide) ⟨fHuge, by simp, hsz⟩
  have hfv : firstViolation [fHuge] = some (Violation.size fHuge) := by
    have hm : fHuge.mimeType ∈ ALLOWED_MIME_TYPES := by decide
    simp [firstViolation, hm, hsz]
  exact ⟨hsz, h.1, h.2.1, h.2.2.1, (h.2.2.2.1 fHuge hfv).1⟩

/-- Claim C9 counterexample: a batch whose first file is an oversize
PDF and whose second file has a disallowed MIME type is answered with
`File too large` naming the first file, not the MIME error naming the
offending one. -/
theorem C9_counterexample :
    fBad9.mimeType ∉ ALLOWED_MIME_TYPES
    ∧ (processRequest dbV 0 tsZero sigTrue (s2b ("me")) [fHuge9, fBad9]
        (some (s2b ("tokV")))).1.status = 400
    ∧ (processRequest dbV 0 tsZero sigTrue (s2b ("me")) [fHuge9, fBad9]
        (some (s2b ("tokV")))).1.error =
      some (s2b ("File too large: ") ++ fHuge9.filename ++ s2b (". Max 50MB."))
    ∧ ¬ (processRequest dbV 0 tsZero sigTrue (s2b ("me")) [fHuge9, fBad9]
        (some (s2b ("tokV")))).1.error =
      some (s2b ("File type not allowed: ") ++ fBad9.filename) := by
  have hsz : MAX_FILE_SIZE < fHuge9.buffer.length := by
    norm_num [fHuge9, MAX_FILE_SIZE]
  have hfv : firstViolation [fHuge9, fBad9] = some (Violation.size fHuge9) := by
    have hm : fHuge9.mimeType ∈ ALLOWED_MIME_TYPES := by decide
    simp [firstViolation, hm, hsz]
  have h := processRequest_sizeviol dbV 0 tsZero sigTrue (s2b ("me"))
    [fHuge9, fBad9] (s2b ("tokV")) utV fHuge9 (by decide) (by decide)
    (by decide) (by decide) (by decide) hfv
  rw [h]
  exact ⟨by decide, rfl, rfl, by decide⟩

/-- Claim C9 (amended): a batch containing a file with a disallowed
MIME type is rejected 400 before any storage call or commit; the
response is `UnsupportedType` naming the MIME offender when the MIME
violation is the first one found by the in-order MIME-then-size
check. -/
theorem C9_amended_mime_allowlist (db : Bytes → Option UploadTokenRec)
    (nowMs : Int) (tsOf : Nat → Nat) (σ : StorageCall → Bool) (user : Bytes)
    (files : List FilePart) (t : Bytes) (ut : UploadTokenRec)
    (ht : ¬ t = []) (hf : ¬ files = []) (hdb : db t = some ut)
    (hval : ¬ (ut.status = TokenStatus.revoked ∨ ut.expiresAt < nowMs ∨
      ut.maxUploads ≤ ut.uploadsUsed))
    (hn : (files.length : Int) ≤ ut.maxUploads - ut.uploadsUsed)
    (hbad : ∃ f ∈ files, f.mimeType ∉ ALLOWED_MIME_TYPES) :
    (processRequest db nowMs tsOf σ user files (some t)).1.status = 400
    ∧ (processRequest db nowMs tsOf σ user files (some t)).2.1 = []
    ∧ (processRequest db nowMs tsOf σ user files (some t)).2.2 = []
    ∧ (∀ g : FilePart, firstViolation files = some (Violation.mime g) →
        (processRequest db nowMs tsOf σ user files (some t)).1.error =
          some (s2b ("File type not allowed: ") ++ g.filename)
        ∧ g ∈ files ∧ g.mimeType ∉ ALLOWED_MIME_TYPES) := by
  have hne : ¬ firstViolation files = none := by
    intro h
    obtain ⟨f, hfmem, hm⟩ := hbad
    exact hm ((firstViolation_eq_none_iff files).mp h f hfmem).1
  cases hv : firstViolation files with
  | none => exact absurd hv hne
  | some v =>
    cases v with
    | mime g =>
      rw [processRequest_mimeviol db nowMs tsOf σ user files t ut g ht hf hdb hval hn hv]
      refine ⟨rfl, rfl, rfl, ?_⟩
      intro g' hg'
      injection hg' with hg2
      injection hg2 with hg3
      subst hg3
      obtain ⟨hm1, hm2⟩ := firstViolation_mime_spec files g hv
      exact ⟨rfl, hm1, hm2⟩
    | size g =>
      rw [processRequest_sizeviol db nowMs tsOf σ user files t ut g ht hf hdb hval hn hv]
      refine ⟨rfl, rfl, rfl, ?_⟩
      intro g' hg'
      injection hg' with hg2
      injection hg2

/-- Witness for C9: a lone disallowed-MIME file is rejected 400 with
the `File type not allowed` message, no commit and no storage call. -/
theorem C9_amended_mime_allowlist_witness :
    fBad9.mimeType ∉ ALLOWED_MIME_TYPES
    ∧ (processRequest dbV 0 tsZero sigTrue (s2b ("me")) [fBad9]
        (some (s2b ("tokV")))).1.status = 400
    ∧ (processRequest dbV 0 tsZero sigTrue (s2b ("me")) [fBad9]
        (some (s2b ("tokV")))).2.1 = []
    ∧ (processRequest dbV 0 tsZero sigTrue (s2b ("me")) [fBad9]
        (some (s2b ("tokV")))).2.2 = []
    ∧ (processRequest dbV 0 tsZero sigTrue (s2b ("me")) [fBad9]
        (some (s2b ("tokV")))).1.error =
      some (s2b ("File type not allowed: ") ++ fBad9.filename) := by
  have h := C9_amended_mime_allowlist dbV 0 tsZero sigTrue (s2b ("me")) [fBad9]
    (s2b ("tokV")) utV (by decide) (by decide) (by decide) (by decide)
    (by decide) ⟨fBad9, by simp, by decide⟩
  exact ⟨by decide, h.1, h.2.1, h.2.2.1, (h.2.2.2 fBad9 (by decide)).1⟩

/-- Claim C6: a payload of at most 4 MiB (4194304 bytes) — in
particular exactly 4 MiB — goes through the single small-file direct
PUT; any larger payload goes through a created upload session followed
by sequential chunk PUTs whose byte ranges start at 0, are sent in
strictly increasing offset order, are contiguous and non-overlapping,
never exceed 4 MiB each (only the final chunk may be smaller), cover up
to the last byte and sum to the total size. -/
theorem C6_small_vs_chunked (σ : StorageCall → Bool) (user uid : Bytes)
    (ts : Nat) (f : FilePart) (len : Nat) (hlen : f.buffer.length = len) :
    (len ≤ 4194304 →
      uploadFile σ user uid ts f =
        (σ (StorageCall.smallPut
            (contentApiPath user (filePathFor uid ts f.filename)) len),
         [StorageCall.smallPut
            (contentApiPath user (filePathFor uid ts f.filename)) len]))
    ∧ (4194304 < len →
        ((∀ c, σ c = true) →
          uploadFile σ user uid ts f =
            (true, StorageCall.createSession
                (sessionApiPath user (filePathFor uid ts f.filename)) f.filename ::
              (chunkUploads len).map
                (fun p => StorageCall.chunkPut p.1 p.2 len)))
        ∧ (∃ e0 rest, chunkUploads len = (0, e0) :: rest)
        ∧ List.Chain' (fun a b => a.1 < b.1) (chunkUploads len)
        ∧ List.Chain' (fun a b => b.1 = a.2 + 1) (chunkUploads len)
        ∧ (∀ p ∈ chunkUploads len,
            p.1 ≤ p.2 ∧ p.2 < len ∧ p.2 + 1 - p.1 ≤ 4194304)
        ∧ ((chunkUploads len).map (fun p => p.2 + 1 - p.1)).sum = len
        ∧ (chunkUploads len).getLast?.map (fun p => p.2) = some (len - 1)) := by
  subst hlen
  have hcs : chunkSize = 4194304 := rfl
  constructor
  · intro h
    rw [← hcs] at h
    simp [uploadFile, h]
  · intro h
    rw [← hcs] at h
    have hpos : 0 < f.buffer.length := by
      have : 0 < chunkSize := by norm_num [chunkSize]
      omega
    obtain ⟨⟨rest, hhead⟩, hchain, hmem, hsum, hlast, hinc⟩ :=
      chunkUploads_spec f.buffer.length hpos
    refine ⟨?_, ⟨min (chunkSize - 1) (f.buffer.length - 1), rest, hhead⟩,
      hinc, hchain, ?_, hsum, hlast⟩
    · intro hσ
      simp only [uploadFile, if_neg (not_le.mpr h), hσ,
        sendChunks_all_true σ f.buffer.length hσ, if_pos]
    · intro p hp
      obtain ⟨h1, h2, h3⟩ := hmem p hp
      rw [hcs] at h3
      exact ⟨h1, h2, h3⟩

/-- Witness for C6: a 4 MiB file goes through the direct PUT; a
4 MiB + 1 file goes through a session whose chunk trace matches the
computed ranges, which sum to the total and chain contiguously. -/
theorem C6_small_vs_chunked_witness :
    smallF.buffer.length = 4194304
    ∧ bigF.buffer.length = 4194305
    ∧ uploadFile sigTrue (s2b ("me")) (s2b ("u6")) 3 smallF =
        (sigTrue (StorageCall.smallPut
            (contentApiPath (s2b ("me")) (filePathFor (s2b ("u6")) 3 smallF.filename))
            4194304),
         [StorageCall.smallPut
            (contentApiPath (s2b ("me")) (filePathFor (s2b ("u6")) 3 smallF.filename))
            4194304])
    ∧ uploadFile sigTrue (s2b ("me")) (s2b ("u6")) 3 bigF =
        (true, StorageCall.createSession
            (sessionApiPath (s2b ("me")) (filePathFor (s2b ("u6")) 3 bigF.filename))
            bigF.filename ::
          (chunkUploads 4194305).map
            (fun p => StorageCall.chunkPut p.1 p.2 4194305))
    ∧ ((chunkUploads 4194305).map (fun p => p.2 + 1 - p.1)).sum = 4194305
    ∧ List.Chain' (fun a b => b.1 = a.2 + 1) (chunkUploads 4194305) := by
  have hs : smallF.buffer.length = 4194304 := by
    norm_num [smallF]
  have hb : bigF.buffer.length = 4194305 := by
    norm_num [bigF]
  have hsmall :=
    (C6_small_vs_chunked sigTrue (s2b ("me")) (s2b ("u6")) 3 smallF 4194304 hs).1
      (by norm_num)
  have hbig :=
    (C6_small_vs_chunked sigTrue (s2b ("me")) (s2b ("u6")) 3 bigF 4194305 hb).2
      (by norm_num)
  exact ⟨hs, hb, hsmall, hbig.1 (fun c => rfl), hbig.2.2.2.2.2.1, hbig.2.2.2.1⟩
